import Mathlib

/-!
Verification of `convert.py`: a JSON-to-config-language converter whose core
is a postfix expression evaluator (`evaluate_postfix_expression`), a recursive
value transducer (`process_value`), the constants-section validation from
`main` (`check_array` and the per-value acceptance test), and the dedicated
constant array renderer (`arr_to_str`).

Modelling conventions:
* JSON-shaped Python values are the inductive `JValue`.  Python numbers are
  modelled as `Int` (the evaluator only ever parses integer literals; the
  claims under study do not involve float-specific behaviour).
* Python `bool` is a subclass of `int`, so `isinstance(v, (int, float))`
  is `True` for booleans; `pyIsNumber` reproduces this faithfully.
* The Python `dict` of constants is an association list with first-match
  lookup (`lookupConst`); `main` builds it without duplicate keys.
* The evaluation stack is a `List JValue` whose head is the top of the
  stack (Python appends/pops at the end of its list).
* Python string helpers (`int(t)`, `str.strip`, `str.split`,
  `str.startswith`, `str.endswith`, `val[2:-1]`, `str(x)`) are modelled as
  executable functions over `List Char`; tokens produced by `split()` never
  contain whitespace, so `int`'s whitespace stripping is irrelevant here.
-/

/-- A JSON-shaped Python value as produced by `json.load`. -/
inductive JValue where
  | num  : Int → JValue
  | bool : Bool → JValue
  | str  : String → JValue
  | arr  : List JValue → JValue
  | dict : List (String × JValue) → JValue
  | null : JValue

/-- The constants mapping passed around by `convert.py` (a Python dict). -/
abbrev Constants := List (String × JValue)

/-- Python `t in constants` / `constants[t]`: first-match association lookup. -/
def lookupConst : Constants → String → Option JValue
  | [], _ => none
  | (k, v) :: rest, t => if k = t then some v else lookupConst rest t

/-- Python `isinstance(v, (int, float))`.  NOTE: Python `bool` is a subclass
of `int`, so booleans satisfy this test. -/
def pyIsNumber : JValue → Bool
  | .num _ => true
  | .bool _ => true
  | _ => false

/-- Numeric value of a Python number; `True` counts as 1 and `False` as 0
in Python arithmetic.  Only ever applied to values with `pyIsNumber`. -/
def toNumInt : JValue → Int
  | .num n => n
  | .bool b => if b then 1 else 0
  | _ => 0

/-- Python `str(x)` on the value shapes that reach a `str()` call in
`convert.py` (numbers, booleans, strings); other shapes never reach it
on the modelled paths. -/
def pyStr : JValue → String
  | .num n => toString n
  | .bool b => if b then "True" else "False"
  | .str s => s
  | .null => "None"
  | _ => ""

/-- Python `max(a, b)`: returns `b` if `b > a` else `a` (the original
object, compared by numeric value). -/
def pyMax (a b : JValue) : JValue :=
  if toNumInt a < toNumInt b then b else a

/-- Decimal value of an ASCII digit character. -/
def digitVal (c : Char) : Nat := c.toNat - 48

/-- Tail of Python `int(t, 10)` digit parsing: after an initial digit,
accepts `digit (['_'] digit)*` (a single underscore may separate digits). -/
def parseDigitsAux (acc : Nat) : List Char → Option Nat
  | [] => some acc
  | '_' :: c :: rest =>
      if c.isDigit then parseDigitsAux (acc * 10 + digitVal c) rest else none
  | c :: rest =>
      if c.isDigit then parseDigitsAux (acc * 10 + digitVal c) rest else none

/-- Python `int(t)` (base 10) on a whitespace-free token: optional single
sign, then digits with optional single underscores between digits. -/
def pyParseInt (s : String) : Option Int :=
  match s.toList with
  | [] => none
  | '-' :: c :: rest =>
      if c.isDigit then (parseDigitsAux (digitVal c) rest).map (fun n => -(n : Int))
      else none
  | '+' :: c :: rest =>
      if c.isDigit then (parseDigitsAux (digitVal c) rest).map (fun n => (n : Int))
      else none
  | c :: rest =>
      if c.isDigit then (parseDigitsAux (digitVal c) rest).map (fun n => (n : Int))
      else none

/-- Worker for Python `str.split()` (no argument): split on runs of
whitespace, producing no empty tokens.  `acc` holds the current token's
characters in reverse. -/
def wsSplitAux : List Char → List Char → List String
  | [], [] => []
  | [], acc => [String.mk acc.reverse]
  | c :: rest, acc =>
      if c.isWhitespace then
        match acc with
        | [] => wsSplitAux rest []
        | _ => String.mk acc.reverse :: wsSplitAux rest []
      else wsSplitAux rest (c :: acc)

/-- Python `s.split()`. -/
def pySplit (s : String) : List String := wsSplitAux s.toList []

/-- Python `s.strip()`: drop whitespace from both ends. -/
def pyStrip (s : String) : String :=
  String.mk (((s.toList.dropWhile Char.isWhitespace).reverse.dropWhile
      Char.isWhitespace).reverse)

/-- Python `val[2:-1]`. -/
def pySlice2m1 (s : String) : String := String.mk ((s.toList.drop 2).dropLast)

/-- Python `s.startswith(p)`. -/
def pyStartsWith (s p : String) : Bool := p.toList.isPrefixOf s.toList

/-- Python `s.endswith(p)`. -/
def pyEndsWith (s p : String) : Bool := p.toList.isSuffixOf s.toList

/-- The single error kind raised by `convert.py`; constructors record which
`raise ConfigError(...)` site fired (and the data interpolated into the
message). -/
inductive ConfigError where
  | notEnoughOperands : String → ConfigError
  | arithNotNumbers : ConfigError
  | maxNotNumbers : ConfigError
  | absNotNumbers : ConfigError
  | arrayInExpression : String → ConfigError
  | unknownToken : String → ConfigError
  | invalidStack : List JValue → ConfigError
  | dictNotAllowed : ConfigError
  | stringNotSupported : String → ConfigError
  | unsupportedType : ConfigError
  | constantNotNumberOrArray : ConfigError
  | arrayElemNotNumber : ConfigError

/-- One iteration of the token loop in `evaluate_postfix_expression`
(lines 22-67 of `convert.py`): classify the token and transform the stack
or fail.  The head of `stack` is the most recently pushed value. -/
def evalStep (cs : Constants) (stack : List JValue) (t : String) :
    Except ConfigError (List JValue) :=
  if t = "+" ∨ t = "-" ∨ t = "*" then
    match stack with
    | b :: a :: rest =>
        if pyIsNumber a && pyIsNumber b then
          if t = "+" then .ok (.num (toNumInt a + toNumInt b) :: rest)
          else if t = "-" then .ok (.num (toNumInt a - toNumInt b) :: rest)
          else .ok (.num (toNumInt a * toNumInt b) :: rest)
        else .error .arithNotNumbers
    | _ => .error (.notEnoughOperands t)
  else if t = "max" then
    match stack with
    | b :: a :: rest =>
        if pyIsNumber a && pyIsNumber b then .ok (pyMax a b :: rest)
        else .error .maxNotNumbers
    | _ => .error (.notEnoughOperands "max")
  else if t = "abs" then
    match stack with
    | a :: rest =>
        if pyIsNumber a then .ok (.num |toNumInt a| :: rest)
        else .error .absNotNumbers
    | [] => .error (.notEnoughOperands "abs")
  else
    match lookupConst cs t with
    | some val =>
        match val with
        | .arr _ => .error (.arrayInExpression t)
        | _ => .ok (val :: stack)
    | none =>
        match pyParseInt t with
        | some n => .ok (.num n :: stack)
        | none => .error (.unknownToken t)

/-- The `for t in tokens` loop of `evaluate_postfix_expression`, threading
the stack and aborting on the first error. -/
def runTokens (cs : Constants) : List String → List JValue →
    Except ConfigError (List JValue)
  | [], stack => .ok stack
  | t :: ts, stack =>
      match evalStep cs stack t with
      | .ok stack' => runTokens cs ts stack'
      | .error e => .error e

/-- `evaluate_postfix_expression(tokens, constants)` (lines 10-70): run the
token loop on an empty stack; the final stack must hold exactly one value,
which is returned. -/
def evaluate_postfix_expression (tokens : List String) (cs : Constants) :
    Except ConfigError JValue :=
  match runTokens cs tokens [] with
  | .ok [v] => .ok v
  | .ok stack => .error (.invalidStack stack)
  | .error e => .error e

mutual

/-- `process_value(val, constants)` (lines 73-104): recursively transform a
JSON value into its textual form.  The `.bool` case lands in the
`isinstance(val, (int, float))` branch of the source (Python booleans are
ints) and is rendered with `str()`. -/
def process_value : JValue → Constants → Except ConfigError String
  | .dict _, _ => .error .dictNotAllowed
  | .arr xs, cs =>
      match process_list xs cs with
      | .ok ts => .ok ("[" ++ String.intercalate ", " ts ++ "]")
      | .error e => .error e
  | .str s, cs =>
      if pyStartsWith s "@(" && pyEndsWith s ")" then
        match evaluate_postfix_expression (pySplit (pyStrip (pySlice2m1 s))) cs with
        | .ok r => .ok (pyStr r)
        | .error e => .error e
      else .error (.stringNotSupported s)
  | .num n, _ => .ok (toString n)
  | .bool b, _ => .ok (pyStr (.bool b))
  | .null, _ => .error .unsupportedType

/-- The list comprehension `[process_value(x, constants) for x in val]`
(line 86), aborting on the first error like the Python comprehension. -/
def process_list : List JValue → Constants → Except ConfigError (List String)
  | [], _ => .ok []
  | x :: xs, cs =>
      match process_value x cs with
      | .ok t =>
          match process_list xs cs with
          | .ok ts => .ok (t :: ts)
          | .error e => .error e
      | .error e => .error e

end

mutual

/-- One element check of `check_array`: elements satisfying
`isinstance(elem, (int, float))` (which booleans do) pass, lists are
checked recursively, anything else fails. -/
def check_elem : JValue → Except ConfigError Unit
  | .arr xs => check_array xs
  | e => if pyIsNumber e then .ok () else .error .arrayElemNotNumber

/-- `check_array` (lines 138-145 of `main`): check each element in order,
propagating the first failure. -/
def check_array : List JValue → Except ConfigError Unit
  | [] => .ok ()
  | e :: rest =>
      match check_elem e with
      | .ok _ => check_array rest
      | .error err => .error err

end

/-- The per-constant value acceptance test of `main` (lines 132-150):
numbers (and, via `isinstance`, booleans) are accepted directly, lists are
accepted after `check_array`, everything else is rejected. -/
def validate_constant_value (v : JValue) : Except ConfigError Unit :=
  if pyIsNumber v then .ok ()
  else
    match v with
    | .arr xs => check_array xs
    | _ => .error .constantNotNumberOrArray

mutual

/-- Rendering of one element inside `arr_to_str` (line 166): recurse on
lists, apply `str()` otherwise. -/
def arrElemStr : JValue → String
  | .arr ys => "[" ++ String.intercalate ", " (arrElemsStr ys) ++ "]"
  | v => pyStr v

/-- The generator expression of `arr_to_str`, elementwise over a list. -/
def arrElemsStr : List JValue → List String
  | [] => []
  | x :: xs => arrElemStr x :: arrElemsStr xs

end

/-- `arr_to_str(a)` (lines 165-166 of `main`): render a constant's array as
a bracketed, `", "`-separated list. -/
def arr_to_str (a : List JValue) : String :=
  "[" ++ String.intercalate ", " (arrElemsStr a) ++ "]"

/-- Whether a token is one of the five operator symbols of the evaluator. -/
def isOpToken (t : String) : Bool :=
  t == "+" || t == "-" || t == "*" || t == "max" || t == "abs"

/-- Whether `x` is bound to a scalar Number in the constants mapping. -/
def isScalarNumConst (cs : Constants) (x : String) : Bool :=
  match lookupConst cs x with
  | some (.num _) => true
  | _ => false

/-- The Number bound to constant `x` (0 if `x` is not a scalar constant;
only used under `isScalarNumConst`). -/
def constVal (cs : Constants) (x : String) : Int :=
  match lookupConst cs x with
  | some (.num v) => v
  | _ => 0

/-- Abstract syntax of a well-formed arithmetic expression over integer
literal tokens and scalar-constant references; used to state what the
mathematically expected result of a well-formed postfix token sequence is.
`lit s n` is a literal token `s` denoting the integer `n`. -/
inductive Expr where
  | lit : String → Int → Expr
  | econst : String → Expr
  | add : Expr → Expr → Expr
  | sub : Expr → Expr → Expr
  | mul : Expr → Expr → Expr
  | emax : Expr → Expr → Expr
  | eabs : Expr → Expr

/-- Postfix serialization of an expression: left operand's tokens, then the
right operand's, then the operator token. -/
def Expr.tokens : Expr → List String
  | .lit s _ => [s]
  | .econst x => [x]
  | .add a b => a.tokens ++ b.tokens ++ ["+"]
  | .sub a b => a.tokens ++ b.tokens ++ ["-"]
  | .mul a b => a.tokens ++ b.tokens ++ ["*"]
  | .emax a b => a.tokens ++ b.tokens ++ ["max"]
  | .eabs a => a.tokens ++ ["abs"]

/-- Mathematically expected value of an expression. -/
def Expr.value (cs : Constants) : Expr → Int
  | .lit _ n => n
  | .econst x => constVal cs x
  | .add a b => a.value cs + b.value cs
  | .sub a b => a.value cs - b.value cs
  | .mul a b => a.value cs * b.value cs
  | .emax a b => max (a.value cs) (b.value cs)
  | .eabs a => |a.value cs|

/-- Well-formedness of an expression relative to the constants mapping:
literal tokens parse as base-10 integers denoting the stated value and are
not shadowed by a constant of the same name; constant references are not
operator symbols and are bound to a scalar Number. -/
def Expr.wf (cs : Constants) : Expr → Bool
  | .lit s n => pyParseInt s == some n && (lookupConst cs s).isNone
  | .econst x => !(isOpToken x) && isScalarNumConst cs x
  | .add a b => a.wf cs && b.wf cs
  | .sub a b => a.wf cs && b.wf cs
  | .mul a b => a.wf cs && b.wf cs
  | .emax a b => a.wf cs && b.wf cs
  | .eabs a => a.wf cs

/-- Whether a value is a Number or an Array (the shapes the validation
phase is meant to admit into the constants mapping). -/
def isNumOrArr : JValue → Bool
  | .num _ => true
  | .arr _ => true
  | _ => false

/-- Whether a value is a Number (the `.num` shape proper, excluding the
Python-boolean quirk). -/
def isNum : JValue → Bool
  | .num _ => true
  | _ => false

mutual

/-- A valid numeric array element: a Number or a nested numeric array. -/
def isNumericValue : JValue → Bool
  | .num _ => true
  | .arr xs => listNumeric xs
  | _ => false

/-- All elements of the list are valid numeric array elements. -/
def listNumeric : List JValue → Bool
  | [] => true
  | x :: xs => isNumericValue x && listNumeric xs

end

/-! ## Helper lemmas -/

theorem runTokens_append (cs : Constants) (l₁ l₂ : List String)
    (stack : List JValue) :
    runTokens cs (l₁ ++ l₂) stack =
      match runTokens cs l₁ stack with
      | .ok s => runTokens cs l₂ s
      | .error e => .error e := by
  induction l₁ generalizing stack with
  | nil => simp [runTokens]
  | cons t ts ih =>
      simp only [List.cons_append, runTokens]
      cases evalStep cs stack t with
      | ok s => exact ih s
      | error e => rfl

theorem runTokens_append_ok (cs : Constants) (l₁ l₂ : List String)
    (stack s : List JValue) (h : runTokens cs l₁ stack = .ok s) :
    runTokens cs (l₁ ++ l₂) stack = runTokens cs l₂ s := by
  rw [runTokens_append, h]

theorem runTokens_append_error (cs : Constants) (l₁ l₂ : List String)
    (stack : List JValue) (e : ConfigError)
    (h : runTokens cs l₁ stack = .error e) :
    runTokens cs (l₁ ++ l₂) stack = .error e := by
  rw [runTokens_append, h]

theorem pyParseInt_ne_ops (s : String) (n : Int) (hp : pyParseInt s = some n) :
    ¬(s = "+" ∨ s = "-" ∨ s = "*") ∧ s ≠ "max" ∧ s ≠ "abs" := by
  refine ⟨?_, ?_, ?_⟩
  · rintro (rfl | rfl | rfl) <;> exact Option.noConfusion hp
  · rintro rfl; exact Option.noConfusion hp
  · rintro rfl; exact Option.noConfusion hp

theorem isOpToken_false_ne (t : String) (h : isOpToken t = false) :
    ¬(t = "+" ∨ t = "-" ∨ t = "*") ∧ t ≠ "max" ∧ t ≠ "abs" := by
  simp only [isOpToken, Bool.or_eq_false_iff, beq_eq_false_iff_ne, ne_eq] at h
  obtain ⟨⟨⟨⟨hpl, hmi⟩, hmu⟩, hmx⟩, hab⟩ := h
  exact ⟨by rintro (rfl | rfl | rfl) <;> simp_all, hmx, hab⟩

theorem evalStep_not_op (cs : Constants) (stack : List JValue) (t : String)
    (h1 : ¬(t = "+" ∨ t = "-" ∨ t = "*")) (h2 : t ≠ "max") (h3 : t ≠ "abs") :
    evalStep cs stack t =
      match lookupConst cs t with
      | some val =>
          match val with
          | .arr _ => .error (.arrayInExpression t)
          | _ => .ok (val :: stack)
      | none =>
          match pyParseInt t with
          | some n => .ok (.num n :: stack)
          | none => .error (.unknownToken t) := by
  unfold evalStep
  rw [if_neg h1, if_neg h2, if_neg h3]

theorem evalStep_push_lit (cs : Constants) (stack : List JValue) (t : String)
    (n : Int) (h1 : ¬(t = "+" ∨ t = "-" ∨ t = "*")) (h2 : t ≠ "max")
    (h3 : t ≠ "abs") (hc : lookupConst cs t = none)
    (hp : pyParseInt t = some n) :
    evalStep cs stack t = .ok (.num n :: stack) := by
  rw [evalStep_not_op cs stack t h1 h2 h3, hc, hp]

theorem evalStep_unknown (cs : Constants) (stack : List JValue) (t : String)
    (h1 : ¬(t = "+" ∨ t = "-" ∨ t = "*")) (h2 : t ≠ "max") (h3 : t ≠ "abs")
    (hc : lookupConst cs t = none) (hp : pyParseInt t = none) :
    evalStep cs stack t = .error (.unknownToken t) := by
  rw [evalStep_not_op cs stack t h1 h2 h3, hc, hp]

theorem evalStep_array_const (cs : Constants) (stack : List JValue)
    (t : String) (xs : List JValue)
    (h1 : ¬(t = "+" ∨ t = "-" ∨ t = "*")) (h2 : t ≠ "max") (h3 : t ≠ "abs")
    (hc : lookupConst cs t = some (.arr xs)) :
    evalStep cs stack t = .error (.arrayInExpression t) := by
  rw [evalStep_not_op cs stack t h1 h2 h3, hc]

theorem evalStep_push_num_const (cs : Constants) (stack : List JValue)
    (t : String) (v : Int)
    (h1 : ¬(t = "+" ∨ t = "-" ∨ t = "*")) (h2 : t ≠ "max") (h3 : t ≠ "abs")
    (hc : lookupConst cs t = some (.num v)) :
    evalStep cs stack t = .ok (.num v :: stack) := by
  rw [evalStep_not_op cs stack t h1 h2 h3, hc]

theorem isScalarNumConst_lookup (cs : Constants) (x : String)
    (h : isScalarNumConst cs x = true) :
    lookupConst cs x = some (.num (constVal cs x)) := by
  unfold isScalarNumConst at h
  unfold constVal
  split at h
  · next v heq => rw [heq]
  · next => exact absurd h (by simp)

theorem pyMax_num (a b : Int) :
    pyMax (JValue.num a) (JValue.num b) = .num (max a b) := by
  simp only [pyMax, toNumInt]
  split
  · next h => rw [max_eq_right (le_of_lt h)]
  · next h => rw [max_eq_left (not_lt.mp h)]

theorem evalStep_add (cs : Constants) (rest : List JValue) (a b : Int) :
    evalStep cs (JValue.num b :: JValue.num a :: rest) "+"
      = .ok (.num (a + b) :: rest) := rfl

theorem evalStep_sub (cs : Constants) (rest : List JValue) (a b : Int) :
    evalStep cs (JValue.num b :: JValue.num a :: rest) "-"
      = .ok (.num (a - b) :: rest) := rfl

theorem evalStep_mul (cs : Constants) (rest : List JValue) (a b : Int) :
    evalStep cs (JValue.num b :: JValue.num a :: rest) "*"
      = .ok (.num (a * b) :: rest) := rfl

theorem evalStep_max_num (cs : Constants) (rest : List JValue) (a b : Int) :
    evalStep cs (JValue.num b :: JValue.num a :: rest) "max"
      = .ok (.num (max a b) :: rest) := by
  have h : evalStep cs (JValue.num b :: JValue.num a :: rest) "max"
      = .ok (pyMax (JValue.num a) (JValue.num b) :: rest) := rfl
  rw [h, pyMax_num]

theorem evalStep_abs_num (cs : Constants) (rest : List JValue) (a : Int) :
    evalStep cs (JValue.num a :: rest) "abs" = .ok (.num |a| :: rest) := rfl

theorem runTokens_wf_expr (cs : Constants) :
    ∀ (e : Expr) (stack : List JValue), Expr.wf cs e = true →
      runTokens cs (Expr.tokens e) stack
        = .ok (.num (Expr.value cs e) :: stack)
  | .lit s n, stack, h => by
      simp only [Expr.wf, Bool.and_eq_true, beq_iff_eq,
        Option.isNone_iff_eq_none] at h
      obtain ⟨hp, hc⟩ := h
      obtain ⟨h1, h2, h3⟩ := pyParseInt_ne_ops s n hp
      simp only [Expr.tokens, runTokens, Expr.value,
        evalStep_push_lit cs stack s n h1 h2 h3 hc hp]
  | .econst x, stack, h => by
      simp only [Expr.wf, Bool.and_eq_true, Bool.not_eq_true'] at h
      obtain ⟨hop, hc⟩ := h
      obtain ⟨h1, h2, h3⟩ := isOpToken_false_ne x hop
      simp only [Expr.tokens, runTokens, Expr.value,
        evalStep_push_num_const cs stack x (constVal cs x) h1 h2 h3
          (isScalarNumConst_lookup cs x hc)]
  | .add a b, stack, h => by
      simp only [Expr.wf, Bool.and_eq_true] at h
      have ha := runTokens_wf_expr cs a stack h.1
      have hb := runTokens_wf_expr cs b (.num (Expr.value cs a) :: stack) h.2
      simp only [Expr.tokens]
      rw [List.append_assoc,
        runTokens_append_ok cs _ _ _ _ ha, runTokens_append_ok cs _ _ _ _ hb]
      simp only [runTokens, evalStep_add, Expr.value]
  | .sub a b, stack, h => by
      simp only [Expr.wf, Bool.and_eq_true] at h
      have ha := runTokens_wf_expr cs a stack h.1
      have hb := runTokens_wf_expr cs b (.num (Expr.value cs a) :: stack) h.2
      simp only [Expr.tokens]
      rw [List.append_assoc,
        runTokens_append_ok cs _ _ _ _ ha, runTokens_append_ok cs _ _ _ _ hb]
      simp only [runTokens, evalStep_sub, Expr.value]
  | .mul a b, stack, h => by
      simp only [Expr.wf, Bool.and_eq_true] at h
      have ha := runTokens_wf_expr cs a stack h.1
      have hb := runTokens_wf_expr cs b (.num (Expr.value cs a) :: stack) h.2
      simp only [Expr.tokens]
      rw [List.append_assoc,
        runTokens_append_ok cs _ _ _ _ ha, runTokens_append_ok cs _ _ _ _ hb]
      simp only [runTokens, evalStep_mul, Expr.value]
  | .emax a b, stack, h => by
      simp only [Expr.wf, Bool.and_eq_true] at h
      have ha := runTokens_wf_expr cs a stack h.1
      have hb := runTokens_wf_expr cs b (.num (Expr.value cs a) :: stack) h.2
      simp only [Expr.tokens]
      rw [List.append_assoc,
        runTokens_append_ok cs _ _ _ _ ha, runTokens_append_ok cs _ _ _ _ hb]
      simp only [runTokens, evalStep_max_num, Expr.value]
  | .eabs a, stack, h => by
      simp only [Expr.wf] at h
      have ha := runTokens_wf_expr cs a stack h
      simp only [Expr.tokens]
      rw [runTokens_append_ok cs _ _ _ _ ha]
      simp only [runTokens, evalStep_abs_num, Expr.value]

theorem evaluate_error_after (cs : Constants) (pre : List String) (t : String)
    (rest : List String) (stack : List JValue) (e : ConfigError)
    (h1 : runTokens cs pre [] = .ok stack)
    (h2 : evalStep cs stack t = .error e) :
    evaluate_postfix_expression (pre ++ t :: rest) cs = .error e := by
  unfold evaluate_postfix_expression
  rw [runTokens_append_ok cs pre (t :: rest) [] stack h1]
  simp only [runTokens, h2]

theorem evalStep_binop_short (cs : Constants) (stack : List JValue)
    (t : String) (ht : t = "+" ∨ t = "-" ∨ t = "*" ∨ t = "max")
    (hlen : stack.length < 2) :
    evalStep cs stack t = .error (.notEnoughOperands t) := by
  have hstack : stack = [] ∨ ∃ x, stack = [x] := by
    match stack with
    | [] => exact Or.inl rfl
    | [x] => exact Or.inr ⟨x, rfl⟩
    | x :: y :: rest =>
        exfalso; simp only [List.length_cons] at hlen; omega
  rcases ht with rfl | rfl | rfl | rfl <;>
    rcases hstack with rfl | ⟨x, rfl⟩ <;> rfl

theorem evalStep_abs_empty (cs : Constants) :
    evalStep cs [] "abs" = .error (.notEnoughOperands "abs") := rfl

theorem evaluate_final_stack (cs : Constants) (tokens : List String)
    (stack : List JValue) (h : runTokens cs tokens [] = .ok stack)
    (hlen : stack.length ≠ 1) :
    evaluate_postfix_expression tokens cs = .error (.invalidStack stack) := by
  unfold evaluate_postfix_expression
  rw [h]
  rcases stack with _ | ⟨x, _ | ⟨y, rest⟩⟩
  · rfl
  · exact absurd rfl hlen
  · rfl

/-! ## Claim theorems -/

/-- C1: for every well-formed postfix token sequence over base-10 integer
literals, defined scalar constants, and the operators `+ - * max abs`,
`evaluate_postfix_expression` returns the single Number equal to the
mathematically expected result, with each binary operator taking the
second-from-top stack value as left operand and the top value as right
operand. -/
theorem evaluate_wellformed_correct (cs : Constants) (e : Expr)
    (h : Expr.wf cs e = true) :
    evaluate_postfix_expression (Expr.tokens e) cs
      = .ok (.num (Expr.value cs e)) := by
  unfold evaluate_postfix_expression
  rw [runTokens_wf_expr cs e [] h]

/-- Witness for C1: concrete instances, including `["3","4","+"] = 7`,
`["5","3","-"] = 2`, `["2","3","max"] = 3`, `["-4","abs"] = 4`, and
constant substitution `["x","2","*"] = 20` under `{"x": 10}`. -/
theorem evaluate_wellformed_correct_witness :
    evaluate_postfix_expression ["3", "4", "+"] [] = .ok (.num 7) ∧
    evaluate_postfix_expression ["5", "3", "-"] [] = .ok (.num 2) ∧
    evaluate_postfix_expression ["2", "3", "max"] [] = .ok (.num 3) ∧
    evaluate_postfix_expression ["-4", "abs"] [] = .ok (.num 4) ∧
    evaluate_postfix_expression ["x", "2", "*"] [("x", JValue.num 10)]
      = .ok (.num 20) := by
  refine ⟨?_, ?_, ?_, ?_, ?_⟩
  · simpa using evaluate_wellformed_correct [] (.add (.lit "3" 3) (.lit "4" 4))
      (by decide)
  · simpa using evaluate_wellformed_correct [] (.sub (.lit "5" 5) (.lit "3" 3))
      (by decide)
  · simpa using evaluate_wellformed_correct []
      (.emax (.lit "2" 2) (.lit "3" 3)) (by decide)
  · simpa using evaluate_wellformed_correct [] (.eabs (.lit "-4" (-4)))
      (by decide)
  · simpa [Expr.value, constVal, lookupConst] using
      evaluate_wellformed_correct [("x", JValue.num 10)]
        (.mul (.econst "x") (.lit "2" 2)) (by decide)

/-- C2: `evaluate_postfix_expression` fails with a `ConfigError` on every
malformed token sequence: a binary operator (`+`, `-`, `*`, `max`) reached
with fewer than two values on the evaluation stack, `abs` reached with an
empty stack, a token that is neither an operator, nor a defined constant,
nor parseable as a base-10 integer (so `["foo"]` and the float literal
`"1.5"` fail as unknown tokens), and a run whose final stack does not hold
exactly one value (so `["1","2"]`, `["1","2","+","3"]` and the empty
sequence fail). -/
theorem evaluate_malformed_fails (cs : Constants) :
    (∀ pre t rest stack, runTokens cs pre [] = .ok stack →
        stack.length < 2 → (t = "+" ∨ t = "-" ∨ t = "*" ∨ t = "max") →
        evaluate_postfix_expression (pre ++ t :: rest) cs
          = .error (.notEnoughOperands t)) ∧
    (∀ pre rest, runTokens cs pre [] = .ok [] →
        evaluate_postfix_expression (pre ++ "abs" :: rest) cs
          = .error (.notEnoughOperands "abs")) ∧
    (∀ pre t rest stack, runTokens cs pre [] = .ok stack →
        isOpToken t = false → lookupConst cs t = none → pyParseInt t = none →
        evaluate_postfix_expression (pre ++ t :: rest) cs
          = .error (.unknownToken t)) ∧
    (∀ tokens stack, runTokens cs tokens [] = .ok stack → stack.length ≠ 1 →
        evaluate_postfix_expression tokens cs
          = .error (.invalidStack stack)) := by
  refine ⟨?_, ?_, ?_, ?_⟩
  · intro pre t rest stack h1 hlen ht
    exact evaluate_error_after cs pre t rest stack _ h1
      (evalStep_binop_short cs stack t ht hlen)
  · intro pre rest h1
    exact evaluate_error_after cs pre "abs" rest [] _ h1 (evalStep_abs_empty cs)
  · intro pre t rest stack h1 hop hc hp
    obtain ⟨h1', h2', h3'⟩ := isOpToken_false_ne t hop
    exact evaluate_error_after cs pre t rest stack _ h1
      (evalStep_unknown cs stack t h1' h2' h3' hc hp)
  · intro tokens stack h hlen
    exact evaluate_final_stack cs tokens stack h hlen

/-- Witness for C2: concrete malformed sequences from the claim. -/
theorem evaluate_malformed_fails_witness :
    evaluate_postfix_expression ["1", "+"] []
      = .error (.notEnoughOperands "+") ∧
    evaluate_postfix_expression ["abs"] []
      = .error (.notEnoughOperands "abs") ∧
    evaluate_postfix_expression ["foo"] [] = .error (.unknownToken "foo") ∧
    evaluate_postfix_expression ["1.5"] [] = .error (.unknownToken "1.5") ∧
    evaluate_postfix_expression ["1", "2"] []
      = .error (.invalidStack [.num 2, .num 1]) ∧
    evaluate_postfix_expression ["1", "2", "+", "3"] []
      = .error (.invalidStack [.num 3, .num 3]) ∧
    evaluate_postfix_expression ([] : List String) []
      = .error (.invalidStack []) := by
  refine ⟨?_, ?_, ?_, ?_, ?_, ?_, ?_⟩
  · simpa using (evaluate_malformed_fails []).1 ["1"] "+" [] [.num 1] rfl
      (by decide) (Or.inl rfl)
  · simpa using (evaluate_malformed_fails []).2.1 [] [] rfl
  · simpa using (evaluate_malformed_fails []).2.2.1 [] "foo" [] [] rfl rfl rfl rfl
  · simpa using (evaluate_malformed_fails []).2.2.1 [] "1.5" [] [] rfl rfl rfl rfl
  · exact (evaluate_malformed_fails []).2.2.2 ["1", "2"] [.num 2, .num 1] rfl
      (by decide)
  · exact (evaluate_malformed_fails []).2.2.2 ["1", "2", "+", "3"]
      [.num 3, .num 3] rfl (by decide)
  · exact (evaluate_malformed_fails []).2.2.2 [] [] rfl (by decide)

/-- C3 counterexample: the naming rule permits a constant named `max`; a
token `max` then still acts as the binary operator even though it names a
constant bound to an Array, and evaluation succeeds. -/
theorem array_constant_shadowed_cex :
    lookupConst [("max", JValue.arr [JValue.num 1])] "max"
      = some (JValue.arr [JValue.num 1]) ∧
    evaluate_postfix_expression ["1", "2", "max"]
      [("max", JValue.arr [JValue.num 1])] = .ok (.num 2) := ⟨rfl, rfl⟩

/-- C3 (amended): every token that is not one of the five operator symbols
and names a constant bound to an Array makes evaluation fail with
`ConfigError`, regardless of which tokens precede or follow it. -/
theorem array_constant_reference_fails (cs : Constants) (pre : List String)
    (t : String) (rest : List String) (stack xs : List JValue)
    (hpre : runTokens cs pre [] = .ok stack) (hop : isOpToken t = false)
    (hc : lookupConst cs t = some (.arr xs)) :
    evaluate_postfix_expression (pre ++ t :: rest) cs
      = .error (.arrayInExpression t) := by
  obtain ⟨h1, h2, h3⟩ := isOpToken_false_ne t hop
  exact evaluate_error_after cs pre t rest stack _ hpre
    (evalStep_array_const cs stack t xs h1 h2 h3 hc)

/-- Witness for C3 (amended): referencing array constant `a` fails even
with operators following. -/
theorem array_constant_reference_fails_witness :
    evaluate_postfix_expression ["1", "a", "+", "*"]
      [("a", JValue.arr [JValue.num 1])]
      = .error (.arrayInExpression "a") := by
  simpa using array_constant_reference_fails
    [("a", JValue.arr [JValue.num 1])] ["1"] "a" ["+", "*"]
    [JValue.num 1] [JValue.num 1] rfl rfl rfl

/-- C7: token classification follows the fixed priority operator, then
constant, then integer literal: an operator symbol is always interpreted
as that operator (the constants mapping is irrelevant to it); a
non-operator token bound in the constants mapping is resolved as that
constant regardless of whether it would parse as an integer; integer
parsing is attempted only for tokens that are neither operators nor
defined constants. -/
theorem token_classification_priority :
    (∀ cs cs' stack t, isOpToken t = true →
        evalStep cs stack t = evalStep cs' stack t) ∧
    (∀ cs stack t val, isOpToken t = false → lookupConst cs t = some val →
        evalStep cs stack t =
          match val with
          | .arr _ => .error (.arrayInExpression t)
          | _ => .ok (val :: stack)) ∧
    (∀ cs stack t, isOpToken t = false → lookupConst cs t = none →
        evalStep cs stack t =
          match pyParseInt t with
          | some n => .ok (.num n :: stack)
          | none => .error (.unknownToken t)) := by
  refine ⟨?_, ?_, ?_⟩
  · intro cs cs' stack t ht
    simp only [isOpToken, Bool.or_eq_true, beq_iff_eq] at ht
    rcases ht with ((((rfl | rfl) | rfl) | rfl) | rfl) <;> rfl
  · intro cs stack t val hop hc
    obtain ⟨h1, h2, h3⟩ := isOpToken_false_ne t hop
    rw [evalStep_not_op cs stack t h1 h2 h3, hc]
  · intro cs stack t hop hc
    obtain ⟨h1, h2, h3⟩ := isOpToken_false_ne t hop
    rw [evalStep_not_op cs stack t h1 h2 h3, hc]

/-- Witness for C7: a constant named `max` does not shadow the operator;
a constant named `5` is consulted before integer parsing; `5` parses as an
integer once no constant is bound to it. -/
theorem token_classification_priority_witness :
    evalStep [("max", JValue.num 99)] [JValue.num 2, JValue.num 1] "max"
      = evalStep [] [JValue.num 2, JValue.num 1] "max" ∧
    evalStep [("5", JValue.num 7)] [] "5" = .ok [JValue.num 7] ∧
    evalStep [] [] "5" = .ok [JValue.num 5] := by
  refine ⟨token_classification_priority.1 _ [] _ "max" rfl, ?_, ?_⟩
  · simpa using token_classification_priority.2.1 [("5", JValue.num 7)] []
      "5" (JValue.num 7) rfl rfl
  · simpa using token_classification_priority.2.2 [] [] "5" rfl rfl

/-- C4: a string value fails with `ConfigError` unless it starts with
`@(` and ends with `)`; when it matches, the body between the delimiters
is stripped of surrounding whitespace, split on whitespace into tokens,
evaluated against the constants, and the resulting Number is rendered as
its decimal text. -/
theorem process_string_expression (cs : Constants) (s : String) :
    (¬(pyStartsWith s "@(" = true ∧ pyEndsWith s ")" = true) →
        process_value (.str s) cs = .error (.stringNotSupported s)) ∧
    (∀ n : Int, pyStartsWith s "@(" = true → pyEndsWith s ")" = true →
        evaluate_postfix_expression (pySplit (pyStrip (pySlice2m1 s))) cs
          = .ok (.num n) →
        process_value (.str s) cs = .ok (toString n)) ∧
    (∀ e : ConfigError, pyStartsWith s "@(" = true →
        pyEndsWith s ")" = true →
        evaluate_postfix_expression (pySplit (pyStrip (pySlice2m1 s))) cs
          = .error e →
        process_value (.str s) cs = .error e) := by
  refine ⟨?_, ?_, ?_⟩
  · intro h
    simp only [process_value]
    rw [if_neg (by simpa [Bool.and_eq_true] using h)]
  · intro n h1 h2 h3
    simp only [process_value]
    rw [if_pos (by simp [h1, h2]), h3]
    rfl
  · intro e h1 h2 h3
    simp only [process_value]
    rw [if_pos (by simp [h1, h2]), h3]

/-- Witness for C4: a plain string fails; `@(1 2 +)` evaluates to `3`;
an unknown token inside the wrapper propagates its error. -/
theorem process_string_expression_witness :
    process_value (.str "hello") [] = .error (.stringNotSupported "hello") ∧
    process_value (.str "@(1 2 +)") [] = .ok "3" ∧
    process_value (.str "@(foo)") [] = .error (.unknownToken "foo") := by
  refine ⟨?_, ?_, ?_⟩
  · exact (process_string_expression [] "hello").1 (by decide)
  · exact (process_string_expression [] "@(1 2 +)").2.1 3 rfl rfl rfl
  · exact (process_string_expression [] "@(foo)").2.2 (.unknownToken "foo")
      rfl rfl rfl

/-- C5: code evidence at the failing input: mapping values and null fail
with `ConfigError` exactly as claimed, but a boolean does NOT fail —
Python `bool` is a subclass of `int`, so `True` satisfies
`isinstance(val, (int, float))` and is rendered `"True"` by the Number
branch, contradicting the claim's "a boolean is never rendered". -/
theorem process_bool_rendered (cs : Constants) :
    (∀ kvs, process_value (.dict kvs) cs = .error .dictNotAllowed) ∧
    process_value .null cs = .error .unsupportedType ∧
    process_value (.bool true) cs = .ok "True" ∧
    process_value (.bool false) cs = .ok "False" :=
  ⟨fun _ => rfl, rfl, rfl, rfl⟩

/-- C6: validation evidence: Numbers and nested numeric arrays are
accepted and strings/dicts/null rejected as claimed, but a boolean is
ACCEPTED — both bound directly to a constant and as an array leaf —
because `isinstance(True, (int, float))` holds in Python, contradicting
the claim that booleans are rejected at validation time. -/
theorem constants_validation_accepts_boolean :
    validate_constant_value (.num 5) = .ok () ∧
    validate_constant_value (.arr [.num 1, .arr [.num 2, .num 3]]) = .ok () ∧
    validate_constant_value (.str "s") = .error .constantNotNumberOrArray ∧
    validate_constant_value (.dict []) = .error .constantNotNumberOrArray ∧
    validate_constant_value .null = .error .constantNotNumberOrArray ∧
    validate_constant_value (.bool true) = .ok () ∧
    validate_constant_value (.arr [.num 1, .arr [.bool false]]) = .ok () ∧
    check_array [.bool true] = .ok () :=
  ⟨rfl, rfl, rfl, rfl, rfl, rfl, rfl, rfl⟩

theorem process_list_eq_mapM (cs : Constants) (xs : List JValue) :
    process_list xs cs = xs.mapM (fun x => process_value x cs) := by
  induction xs with
  | nil => rfl
  | cons x xs ih =>
      rw [List.mapM_cons]
      simp only [process_list, ih]
      cases process_value x cs with
      | ok t =>
          cases xs.mapM (fun x => process_value x cs) with
          | ok ts => rfl
          | error e => rfl
      | error e => rfl

/-- C8: transform of an array value recursively transforms each element in
input order (the elementwise traversal is exactly `mapM` of the transform)
and joins the results with `", "` separators inside brackets; the empty
array renders as `[]` and `[1, [2, 3], 4]` renders as `[1, [2, 3], 4]`. -/
theorem array_rendering_joined (cs : Constants) :
    (∀ xs, process_list xs cs = xs.mapM (fun x => process_value x cs)) ∧
    (∀ xs ts, process_list xs cs = .ok ts →
        process_value (.arr xs) cs
          = .ok ("[" ++ String.intercalate ", " ts ++ "]")) ∧
    process_value (.arr []) cs = .ok "[]" ∧
    process_value (.arr [.num 1, .arr [.num 2, .num 3], .num 4]) cs
      = .ok "[1, [2, 3], 4]" := by
  refine ⟨process_list_eq_mapM cs, ?_, rfl, rfl⟩
  intro xs ts h
  simp only [process_value, h]

/-- Witness for C8: the join at a concrete element list. -/
theorem array_rendering_joined_witness :
    process_value (.arr [.num 1, .num 2]) [] = .ok "[1, 2]" := by
  exact (array_rendering_joined []).2.1 [.num 1, .num 2] ["1", "2"] rfl

theorem isNum_num (v : JValue) (h : isNum v = true) : ∃ n, v = .num n := by
  cases v <;> first | exact ⟨_, rfl⟩ | simp [isNum] at h

theorem all_num_push (rest : List JValue) (n : Int)
    (h : ∀ v ∈ rest, isNum v = true) :
    ∀ v ∈ (JValue.num n :: rest), isNum v = true := by
  intro v hv
  rcases List.mem_cons.mp hv with rfl | hv
  · rfl
  · exact h v hv

theorem lookupConst_mem (cs : Constants) (t : String) (v : JValue)
    (h : lookupConst cs t = some v) : ∃ k, (k, v) ∈ cs := by
  induction cs with
  | nil => exact Option.noConfusion h
  | cons kv rest ih =>
      obtain ⟨k, w⟩ := kv
      simp only [lookupConst] at h
      by_cases hk : k = t
      · rw [if_pos hk] at h
        exact ⟨k, by simp [Option.some_inj.mp h]⟩
      · rw [if_neg hk] at h
        obtain ⟨k', hm⟩ := ih h
        exact ⟨k', List.mem_cons_of_mem _ hm⟩

/-- Both conjuncts of the preservation goal, from a known `.ok` result. -/
theorem preserve_goal_of_ok (cs : Constants) (stack : List JValue)
    (t : String) (s₀ : List JValue)
    (heq : evalStep cs stack t = .ok s₀)
    (hall : ∀ v ∈ s₀, isNum v = true) :
    (∀ s, evalStep cs stack t = .ok s → ∀ v ∈ s, isNum v = true) ∧
    (∀ e, evalStep cs stack t = .error e →
        e ≠ .arithNotNumbers ∧ e ≠ .maxNotNumbers ∧ e ≠ .absNotNumbers) := by
  constructor
  · intro s hok v hv
    rw [heq] at hok
    injection hok with h
    subst h
    exact hall v hv
  · intro e herr
    rw [heq] at herr
    exact Except.noConfusion herr

/-- Both conjuncts of the preservation goal, from a known benign error. -/
theorem preserve_goal_of_err (cs : Constants) (stack : List JValue)
    (t : String) (e₀ : ConfigError)
    (heq : evalStep cs stack t = .error e₀)
    (hgood : e₀ ≠ .arithNotNumbers ∧ e₀ ≠ .maxNotNumbers ∧
        e₀ ≠ .absNotNumbers) :
    (∀ s, evalStep cs stack t = .ok s → ∀ v ∈ s, isNum v = true) ∧
    (∀ e, evalStep cs stack t = .error e →
        e ≠ .arithNotNumbers ∧ e ≠ .maxNotNumbers ∧ e ≠ .absNotNumbers) := by
  constructor
  · intro s hok
    rw [heq] at hok
    exact Except.noConfusion hok
  · intro e herr
    rw [heq] at herr
    injection herr with h
    subst h
    exact hgood

theorem evalStep_preserves_num (cs : Constants)
    (hcs : ∀ t v, lookupConst cs t = some v → isNumOrArr v = true)
    (stack : List JValue) (t : String)
    (hs : ∀ v ∈ stack, isNum v = true) :
    (∀ s, evalStep cs stack t = .ok s → ∀ v ∈ s, isNum v = true) ∧
    (∀ e, evalStep cs stack t = .error e →
        e ≠ .arithNotNumbers ∧ e ≠ .maxNotNumbers ∧ e ≠ .absNotNumbers) := by
  by_cases h1 : t = "+" ∨ t = "-" ∨ t = "*"
  · rcases stack with _ | ⟨b, _ | ⟨a, rest⟩⟩
    · exact preserve_goal_of_err cs [] t _
        (evalStep_binop_short cs [] t (by tauto) (by simp))
        ⟨(fun h => nomatch h), (fun h => nomatch h), (fun h => nomatch h)⟩
    · exact preserve_goal_of_err cs [b] t _
        (evalStep_binop_short cs [b] t (by tauto) (by simp))
        ⟨(fun h => nomatch h), (fun h => nomatch h), (fun h => nomatch h)⟩
    · obtain ⟨nb, rfl⟩ := isNum_num b (hs b (by simp))
      obtain ⟨na, rfl⟩ := isNum_num a (hs a (by simp))
      have hrest : ∀ v ∈ rest, isNum v = true := fun v hv =>
        hs v (by simp [hv])
      rcases h1 with rfl | rfl | rfl
      · exact preserve_goal_of_ok cs _ _ _ (evalStep_add cs rest na nb)
          (all_num_push rest _ hrest)
      · exact preserve_goal_of_ok cs _ _ _ (evalStep_sub cs rest na nb)
          (all_num_push rest _ hrest)
      · exact preserve_goal_of_ok cs _ _ _ (evalStep_mul cs rest na nb)
          (all_num_push rest _ hrest)
  · by_cases h2 : t = "max"
    · subst h2
      rcases stack with _ | ⟨b, _ | ⟨a, rest⟩⟩
      · exact preserve_goal_of_err cs [] _ _
          (evalStep_binop_short cs [] _ (by tauto) (by simp))
          ⟨(fun h => nomatch h), (fun h => nomatch h), (fun h => nomatch h)⟩
      · exact preserve_goal_of_err cs [b] _ _
          (evalStep_binop_short cs [b] _ (by tauto) (by simp))
          ⟨(fun h => nomatch h), (fun h => nomatch h), (fun h => nomatch h)⟩
      · obtain ⟨nb, rfl⟩ := isNum_num b (hs b (by simp))
        obtain ⟨na, rfl⟩ := isNum_num a (hs a (by simp))
        have hrest : ∀ v ∈ rest, isNum v = true := fun v hv =>
          hs v (by simp [hv])
        exact preserve_goal_of_ok cs _ _ _ (evalStep_max_num cs rest na nb)
          (all_num_push rest _ hrest)
    · by_cases h3 : t = "abs"
      · subst h3
        rcases stack with _ | ⟨a, rest⟩
        · exact preserve_goal_of_err cs [] _ _ (evalStep_abs_empty cs)
            ⟨(fun h => nomatch h), (fun h => nomatch h), (fun h => nomatch h)⟩
        · obtain ⟨na, rfl⟩ := isNum_num a (hs a (by simp))
          have hrest : ∀ v ∈ rest, isNum v = true := fun v hv =>
            hs v (by simp [hv])
          exact preserve_goal_of_ok cs _ _ _ (evalStep_abs_num cs rest na)
            (all_num_push rest _ hrest)
      · cases hlk : lookupConst cs t with
        | some val =>
            have hva := hcs t val hlk
            cases val with
            | num n =>
                exact preserve_goal_of_ok cs _ _ _
                  (evalStep_push_num_const cs stack t n h1 h2 h3 hlk)
                  (all_num_push stack n hs)
            | arr xs =>
                exact preserve_goal_of_err cs _ _ _
                  (evalStep_array_const cs stack t xs h1 h2 h3 hlk)
                  ⟨(fun h => nomatch h), (fun h => nomatch h), (fun h => nomatch h)⟩
            | bool b => simp [isNumOrArr] at hva
            | str s => simp [isNumOrArr] at hva
            | dict kvs => simp [isNumOrArr] at hva
            | null => simp [isNumOrArr] at hva
        | none =>
            cases hp : pyParseInt t with
            | some n =>
                exact preserve_goal_of_ok cs _ _ _
                  (evalStep_push_lit cs stack t n h1 h2 h3 hlk hp)
                  (all_num_push stack n hs)
            | none =>
                exact preserve_goal_of_err cs _ _ _
                  (evalStep_unknown cs stack t h1 h2 h3 hlk hp)
                  ⟨(fun h => nomatch h), (fun h => nomatch h), (fun h => nomatch h)⟩

theorem runTokens_preserves_num (cs : Constants)
    (hcs : ∀ t v, lookupConst cs t = some v → isNumOrArr v = true) :
    ∀ (tokens : List String) (stack : List JValue),
      (∀ v ∈ stack, isNum v = true) →
      (∀ s, runTokens cs tokens stack = .ok s → ∀ v ∈ s, isNum v = true) ∧
      (∀ e, runTokens cs tokens stack = .error e →
          e ≠ .arithNotNumbers ∧ e ≠ .maxNotNumbers ∧ e ≠ .absNotNumbers)
  | [], stack, hs => by
      constructor
      · intro s hok
        injection hok with h
        subst h
        exact hs
      · intro e herr
        exact Except.noConfusion herr
  | t :: ts, stack, hs => by
      have hstep := evalStep_preserves_num cs hcs stack t hs
      simp only [runTokens]
      cases hst : evalStep cs stack t with
      | ok stack' =>
          exact runTokens_preserves_num cs hcs ts stack' (hstep.1 stack' hst)
      | error e' =>
          constructor
          · intro s hok
            exact Except.noConfusion hok
          · intro e herr
            injection herr with h
            subst h
            exact hstep.2 e' hst

/-- C9: under the precondition that every value in the constants mapping
is a Number or an Array, every value pushed onto the evaluation stack is a
Number, and the three non-numeric-operand error branches
(`arithNotNumbers`, `maxNotNumbers`, `absNotNumbers`) are unreachable:
no token sequence makes `evaluate_postfix_expression` raise them. -/
theorem stack_numeric_type_errors_unreachable (cs : Constants)
    (hcs : ∀ kv ∈ cs, isNumOrArr kv.2 = true) :
    (∀ tokens stack, runTokens cs tokens [] = .ok stack →
        ∀ v ∈ stack, isNum v = true) ∧
    (∀ tokens,
        evaluate_postfix_expression tokens cs ≠ .error .arithNotNumbers ∧
        evaluate_postfix_expression tokens cs ≠ .error .maxNotNumbers ∧
        evaluate_postfix_expression tokens cs ≠ .error .absNotNumbers) := by
  have hcs' : ∀ t v, lookupConst cs t = some v → isNumOrArr v = true := by
    intro t v h
    obtain ⟨k, hm⟩ := lookupConst_mem cs t v h
    exact hcs (k, v) hm
  constructor
  · intro tokens stack h
    exact (runTokens_preserves_num cs hcs' tokens [] (by simp)).1 stack h
  · intro tokens
    have h := (runTokens_preserves_num cs hcs' tokens [] (by simp)).2
    unfold evaluate_postfix_expression
    cases hrun : runTokens cs tokens [] with
    | ok stack =>
        rcases stack with _ | ⟨x, _ | ⟨y, rest⟩⟩
        · refine ⟨?_, ?_, ?_⟩ <;> intro hco <;>
            · injection hco with h'
              exact ConfigError.noConfusion h'
        · refine ⟨?_, ?_, ?_⟩ <;> intro hco <;> exact Except.noConfusion hco
        · refine ⟨?_, ?_, ?_⟩ <;> intro hco <;>
            · injection hco with h'
              exact ConfigError.noConfusion h'
    | error e =>
        obtain ⟨he1, he2, he3⟩ := h e hrun
        refine ⟨?_, ?_, ?_⟩ <;> intro hco <;> injection hco with h'
        · exact he1 h'
        · exact he2 h'
        · exact he3 h'

/-- Witness for C9: with constants `{"x": 10, "a": []}` the precondition
holds, a concrete run leaves only Numbers on the stack, and concrete
sequences cannot produce the three type errors. -/
theorem stack_numeric_type_errors_unreachable_witness :
    (∀ v ∈ [JValue.num 20], isNum v = true) ∧
    evaluate_postfix_expression ["a", "abs"]
      [("x", JValue.num 10), ("a", JValue.arr [])]
      ≠ .error .absNotNumbers ∧
    evaluate_postfix_expression ["x", "1", "+"]
      [("x", JValue.num 10), ("a", JValue.arr [])]
      ≠ .error .arithNotNumbers := by
  have h := stack_numeric_type_errors_unreachable
    [("x", JValue.num 10), ("a", JValue.arr [])] (by decide)
  exact ⟨h.1 ["4", "5", "*"] [JValue.num 20] rfl,
    (h.2 ["a", "abs"]).2.2, (h.2 ["x", "1", "+"]).1⟩

mutual

theorem process_numeric_value (cs : Constants) :
    ∀ (v : JValue), isNumericValue v = true →
      process_value v cs = .ok (arrElemStr v)
  | .num n, _ => rfl
  | .arr xs, h => by
      have hl := process_numeric_list cs xs
        (by simpa [isNumericValue] using h)
      simp only [process_value, hl, arrElemStr]
  | .bool b, h => by simp [isNumericValue] at h
  | .str s, h => by simp [isNumericValue] at h
  | .dict kvs, h => by simp [isNumericValue] at h
  | .null, h => by simp [isNumericValue] at h

theorem process_numeric_list (cs : Constants) :
    ∀ (xs : List JValue), listNumeric xs = true →
      process_list xs cs = .ok (arrElemsStr xs)
  | [], _ => rfl
  | x :: xs, h => by
      simp only [listNumeric, Bool.and_eq_true] at h
      have hx := process_numeric_value cs x h.1
      have hxs := process_numeric_list cs xs h.2
      simp only [process_list, hx, hxs, arrElemsStr]

end

/-- C10: for every valid numeric array (arbitrarily nested arrays whose
leaves are all Numbers), the dedicated constant renderer `arr_to_str` and
the general transducer `process_value` produce the identical output text,
whatever the constants mapping. -/
theorem process_value_eq_arr_to_str (cs : Constants) (xs : List JValue)
    (h : listNumeric xs = true) :
    process_value (.arr xs) cs = .ok (arr_to_str xs) := by
  have hl := process_numeric_list cs xs h
  simp only [process_value, hl, arr_to_str]

/-- Witness for C10: the two renderers agree on `[1, [2, 3], 4]`. -/
theorem process_value_eq_arr_to_str_witness :
    process_value (.arr [.num 1, .arr [.num 2, .num 3], .num 4]) []
      = .ok (arr_to_str [.num 1, .arr [.num 2, .num 3], .num 4]) ∧
    arr_to_str [.num 1, .arr [.num 2, .num 3], .num 4]
      = "[1, [2, 3], 4]" :=
  ⟨process_value_eq_arr_to_str [] _ rfl, rfl⟩

